import Mathlib

/-! cvpgo: configlet assignment reconciliation

A shallow embedding of `client/configlet.go`: the set reconciler
(`contains`, `filterCfglet`, `mergeCfglet`, `getNames`, `getKeys`), the
response-envelope check (`checkErrors`), the directory accessors and the
two-phase stage/commit operations `ApplyConfigletToDevice` and
`RemoveConfigletFromDevice`, and the validation workflow `ValidateReconcileAll`.

Go slices are lists; a Go `error` is `Option String` (`none` is `nil`); a Go
function returning `(T, error)` returns a pair. Calls to `log.Printf` write to
the process log only and are left out.
-/

set_option autoImplicit false

namespace Cvpgo

/-! ## Data model -/

/-- Go `error`: `none` is `nil`, `some msg` is an error carrying `msg`. -/
abbrev GoError := Option String

/-- Raw response body (`[]byte`) handed back by the transport. -/
abbrev Bytes := String

/-- The `Configlet` struct; Go `==` on it compares all three fields. -/
structure Configlet where
  Config : String
  Name : String
  Key : String
deriving DecidableEq, Repr

/-- The `ConfigletList` struct. -/
structure ConfigletList where
  List : List Configlet
deriving DecidableEq, Repr

/-- The `JsonData` response envelope; `Data` is an `interface{}`, kept as the
optional raw value. -/
structure JsonData where
  Data : Option String
  ErrorCode : String
  ErrorMessage : String
deriving DecidableEq, Repr

/-- The `ApplyConfiglet` struct (an assignment action). -/
structure ApplyConfiglet where
  Info : String
  InfoPreview : String
  Action : String
  NodeType : String
  NodeID : String
  ToID : String
  ToIDType : String
  FromID : String
  NodeName : String
  FromName : String
  ToName : String
  NodeIPAddress : String
  NodeTargetIPAddress : String
  ConfigletList : List String
  ConfigletNamesList : List String
  IgnoreConfigletList : List String
  IgnoreConfigletNamesList : List String
  ConfigletBuilderList : List String
  ConfigletBuilderNamesList : List String
  IgnoreConfigletBuilderList : List String
  IgnoreConfigletBuilderNamesList : List String
deriving DecidableEq, Repr

/-- The `ApplyConfigletData` struct. -/
structure ApplyConfigletData where
  Data : List ApplyConfiglet
deriving DecidableEq, Repr

/-- The `ValidateRequest` struct. -/
structure ValidateRequest where
  NetElementID : String
  ConfigIDList : List String
  PageType : String
deriving DecidableEq, Repr

/-! ## Set reconciler (pure functions) -/

/-- Go `contains`: linear scan with struct equality. -/
def contains : List Configlet → Configlet → Bool
  | [], _ => false
  | t :: rest, elem => if t = elem then true else contains rest elem

/-- Loop of `filterCfglet`: `stay` is the slice built so far. -/
def filterCfgletLoop (remove : List Configlet) :
    List Configlet → List Configlet → List Configlet
  | [], stay => stay
  | cfglet :: rest, stay =>
    if !contains remove cfglet then filterCfgletLoop remove rest (stay ++ [cfglet])
    else filterCfgletLoop remove rest stay

/-- Go `filterCfglet` (the receiver is not used by the body). -/
def filterCfglet (all remove : List Configlet) : List Configlet × GoError :=
  (filterCfgletLoop remove all [], none)

/-- Loop of `mergeCfglet`: `all` is the slice built so far. -/
def mergeCfgletLoop (current : List Configlet) :
    List Configlet → List Configlet → List Configlet
  | [], all => all
  | cfglet :: rest, all =>
    if !contains current cfglet then mergeCfgletLoop current rest (all ++ [cfglet])
    else mergeCfgletLoop current rest all

/-- Go `mergeCfglet` (the receiver is not used by the body). The first statement
`all = append(current, all...)` appends the nil named result to `current`. -/
def mergeCfglet (current new : List Configlet) : List Configlet × GoError :=
  (mergeCfgletLoop current new (current ++ []), none)

/-- Loop shared by the two projections: `result = append(result, f cfglet)`. -/
def projLoop (f : Configlet → String) : List Configlet → List String → List String
  | [], result => result
  | cfglet :: rest, result => projLoop f rest (result ++ [f cfglet])

/-- Go `getNames`: the names, in order, starting from `make([]string, 0)`. -/
def getNames (cfglets : List Configlet) : List String :=
  projLoop (fun cfglet => cfglet.Name) cfglets []

/-- Go `getKeys`: the keys, in order, starting from `make([]string, 0)`. -/
def getKeys (cfglets : List Configlet) : List String :=
  projLoop (fun cfglet => cfglet.Key) cfglets []

/-- Go `checkErrors`: `fmt.Errorf("CVP returned error code: %s, %s", ...)`. -/
def checkErrors (data : JsonData) : GoError :=
  if data.ErrorCode ≠ "" then
    some ("CVP returned error code: " ++ data.ErrorCode ++ ", " ++ data.ErrorMessage)
  else none

/-! ## Transport and remote calls

`CvpClient.Call`, `CvpClient.Get` and `encoding/json` are not part of the
embedded file; they are parameters. The remote system has an abstract state
`σ`; every `Get`/`Call` may change it and is recorded in a trace. -/

/-- Request payloads handed to `Call` by the embedded functions. -/
inductive Body where
  | applyData (data : ApplyConfigletData)
  | validateRequest (req : ValidateRequest)
deriving DecidableEq, Repr

/-- One transport invocation. -/
inductive Event where
  | get (url : String)
  | call (body : Body) (url : String)
deriving DecidableEq, Repr

/-- Whether an event is a `Get`. -/
def Event.isGet : Event → Bool
  | Event.get _ => true
  | Event.call _ _ => false

/-- The client: the transport methods `Get` and `Call` over the remote state,
and `json.Unmarshal` into a zero value of each of the three target types (the
decoded value together with the decoding error). -/
structure CvpClient (σ : Type) where
  Get : String → σ → (Bytes × GoError) × σ
  Call : Body → String → σ → (Bytes × GoError) × σ
  unmarshalConfiglet : Bytes → Configlet × GoError
  unmarshalConfigletList : Bytes → ConfigletList × GoError
  unmarshalJsonData : Bytes → JsonData × GoError

/-- Remote state together with the trace of transport invocations so far. -/
structure World (σ : Type) where
  remote : σ
  trace : List Event

variable {σ : Type}

/-- Transport `c.Get(url)`, recorded in the trace. -/
def doGet (c : CvpClient σ) (url : String) (w : World σ) :
    (Bytes × GoError) × World σ :=
  let r := c.Get url w.remote
  (r.1, { remote := r.2, trace := w.trace ++ [Event.get url] })

/-- Transport `c.Call(body, url)`, recorded in the trace. -/
def doCall (c : CvpClient σ) (body : Body) (url : String) (w : World σ) :
    (Bytes × GoError) × World σ :=
  let r := c.Call body url w.remote
  (r.1, { remote := r.2, trace := w.trace ++ [Event.call body url] })

/-- Go `addTempAction`: the staging call. -/
def addTempAction (c : CvpClient σ) (action : ApplyConfiglet) (w : World σ) :
    GoError × World σ :=
  let url := "/provisioning/addTempAction.do?format=topology&queryParam=&nodeId=root"
  let dataArray := [action]
  let data : ApplyConfigletData := { Data := dataArray }
  let r := doCall c (Body.applyData data) url w
  (r.1.2, r.2)

/-- Go `saveTopologyV2`: the commit call. -/
def saveTopologyV2 (c : CvpClient σ) (action : ApplyConfiglet) (w : World σ) :
    GoError × World σ :=
  let url := "/provisioning/v2/saveTopology.do"
  let dataArray := [action]
  let data : ApplyConfigletData := { Data := dataArray }
  let r := doCall c (Body.applyData data) url w
  (r.1.2, r.2)

/-- Go `getConfigletByDeviceID`: the error of `Get` is overwritten by the error of
`json.Unmarshal`; on a decoding error the returned slice is nil. -/
def getConfigletByDeviceID (c : CvpClient σ) (deviceMac : String) (w : World σ) :
    (List Configlet × GoError) × World σ :=
  let url := "/provisioning/getConfigletsByNetElementId.do?netElementId=" ++ deviceMac
    ++ "&queryParam=&startIndex=0&endIndex=15"
  let r := doGet c url w
  let respbody := r.1.1
  let d := c.unmarshalConfigletList respbody
  match d.2 with
  | some e => (([], some e), r.2)
  | none => ((d.1.List, none), r.2)

/-- Go `GetConfigletByName`: the error of `Get` is overwritten by the error of
`json.Unmarshal`; both branches return the decoded value and that error. -/
def GetConfigletByName (c : CvpClient σ) (cfglet : String) (w : World σ) :
    (Configlet × GoError) × World σ :=
  let url := "/configlet/getConfigletByName.do?name=" ++ cfglet
  let r := doGet c url w
  let respbody := r.1.1
  let d := c.unmarshalConfiglet respbody
  match d.2 with
  | some e => ((d.1, some e), r.2)
  | none => ((d.1, none), r.2)

/-- Loop of `getConfigletsByName`: `result` is the slice built so far. -/
def getConfigletsByNameLoop (c : CvpClient σ) :
    List String → List Configlet → World σ → (List Configlet × GoError) × World σ
  | [], result, w => ((result, none), w)
  | cfgletName :: rest, result, w =>
    let r := GetConfigletByName c cfgletName w
    match r.1.2 with
    | some e => ((result, some e), r.2)
    | none => getConfigletsByNameLoop c rest (result ++ [r.1.1]) r.2

/-- Go `getConfigletsByName`: resolve the names in order, stop at the first error. -/
def getConfigletsByName (c : CvpClient σ) (cfglets : List String) (w : World σ) :
    (List Configlet × GoError) × World σ :=
  getConfigletsByNameLoop c cfglets [] w

/-- Go `ApplyConfigletToDevice`: the error of the staging call is returned only
when `save` is false. -/
def ApplyConfigletToDevice (c : CvpClient σ) (deviceIP deviceName deviceMac : String)
    (cnl : List String) (save : Bool) (w : World σ) : GoError × World σ :=
  let r1 := getConfigletByDeviceID c deviceMac w
  let cfgletCurrent := r1.1.1
  match r1.1.2 with
  | some e => (some e, r1.2)
  | none =>
    let r2 := getConfigletsByName c cnl r1.2
    let cfgletNew := r2.1.1
    match r2.1.2 with
    | some e => (some e, r2.2)
    | none =>
      let cfgletAll := (mergeCfglet cfgletCurrent cfgletNew).1
      let applyCfglet : ApplyConfiglet :=
        { Info := "Configlet Assign to device: " ++ deviceName
          InfoPreview := "<b>Configlet assign</b> to Device " ++ deviceName
          Action := "associate"
          NodeIPAddress := deviceIP
          NodeTargetIPAddress := deviceIP
          NodeType := "configlet"
          ToID := deviceMac
          ToIDType := "netelement"
          ToName := deviceName
          ConfigletList := getKeys cfgletAll
          ConfigletNamesList := getNames cfgletAll
          ConfigletBuilderList := []
          ConfigletBuilderNamesList := []
          IgnoreConfigletList := []
          IgnoreConfigletNamesList := []
          IgnoreConfigletBuilderList := []
          IgnoreConfigletBuilderNamesList := []
          NodeID := ""
          FromID := ""
          NodeName := ""
          FromName := "" }
      let r3 := addTempAction c applyCfglet r2.2
      if save then saveTopologyV2 c applyCfglet r3.2
      else (r3.1, r3.2)

/-- Go `RemoveConfigletFromDevice`: the error of `filterCfglet` (always nil) is
overwritten by the staging call's, which is returned only when `save` is false. -/
def RemoveConfigletFromDevice (c : CvpClient σ) (deviceIP deviceName deviceMac : String)
    (cfgletRemoveNames : List String) (save : Bool) (w : World σ) : GoError × World σ :=
  let r1 := getConfigletByDeviceID c deviceMac w
  let cfgletAll := r1.1.1
  match r1.1.2 with
  | some e => (some e, r1.2)
  | none =>
    let r2 := getConfigletsByName c cfgletRemoveNames r1.2
    let cfgletRemove := r2.1.1
    match r2.1.2 with
    | some e => (some e, r2.2)
    | none =>
      let cfgletRemain := (filterCfglet cfgletAll cfgletRemove).1
      let removeCfglet : ApplyConfiglet :=
        { Info := "Configlet Remove from device: " ++ deviceName
          InfoPreview := "<b>Configlet remove</b> from Device " ++ deviceName
          Action := "associate"
          NodeIPAddress := deviceIP
          NodeTargetIPAddress := deviceIP
          NodeType := "configlet"
          ToID := deviceMac
          ToIDType := "netelement"
          ToName := deviceName
          ConfigletList := getKeys cfgletRemain
          ConfigletNamesList := getNames cfgletRemain
          ConfigletBuilderList := []
          ConfigletBuilderNamesList := []
          IgnoreConfigletList := getKeys cfgletRemove
          IgnoreConfigletNamesList := getNames cfgletRemove
          IgnoreConfigletBuilderList := []
          IgnoreConfigletBuilderNamesList := []
          NodeID := ""
          FromID := ""
          NodeName := ""
          FromName := "" }
      let r3 := addTempAction c removeCfglet r2.2
      if save then saveTopologyV2 c removeCfglet r3.2
      else (r3.1, r3.2)

/-- Go `ValidateReconcileAll`: the errors of `getConfigletByDeviceID` and of
`Call` are overwritten, the error of `json.Unmarshal` is only logged, and the
result is `checkErrors` of the envelope as decoded. `PageType` is left at its
zero value. -/
def ValidateReconcileAll (c : CvpClient σ) (netElementID : String) (w : World σ) :
    GoError × World σ :=
  let url := "/provisioning/v2/validateAndCompareConfiglets.do"
  let r1 := getConfigletByDeviceID c netElementID w
  let cfglets := r1.1.1
  let req : ValidateRequest :=
    { NetElementID := netElementID
      ConfigIDList := getKeys cfglets
      PageType := "" }
  let r2 := doCall c (Body.validateRequest req) url r1.2
  let resp := r2.1.1
  let d := c.unmarshalJsonData resp
  let responseBody := d.1
  (checkErrors responseBody, r2.2)

/-! ## Concrete scenarios -/

/-- Configlet `A` with key `1`. -/
def cfgA : Configlet := { Config := "", Name := "A", Key := "1" }

/-- Configlet `B` with key `2`. -/
def cfgB : Configlet := { Config := "", Name := "B", Key := "2" }

/-- Configlet `C` with key `3`. -/
def cfgC : Configlet := { Config := "", Name := "C", Key := "3" }

/-- Decoder of the scenario remote for a single configlet: the bodies `A` and
`C` decode; anything else is a decoding error on the zero value. -/
def scenarioUnmarshalConfiglet (body : Bytes) : Configlet × GoError :=
  if body = "A" then (cfgA, none)
  else if body = "C" then (cfgC, none)
  else ({ Config := "", Name := "", Key := "" }, some "unexpected end of JSON input")

/-- Decoder of the scenario remote for a configlet list: the body `AB` decodes
to `[A, B]`. -/
def scenarioUnmarshalConfigletList (body : Bytes) : ConfigletList × GoError :=
  if body = "AB" then ({ List := [cfgA, cfgB] }, none)
  else ({ List := [] }, some "unexpected end of JSON input")

/-- The `Get` of the scenario remote: device `m1` holds `A` and `B`, the names
`A` and `C` resolve, every other path yields an empty body and an error. -/
def scenarioGet (url : String) (s : Unit) : (Bytes × GoError) × Unit :=
  if url = "/provisioning/getConfigletsByNetElementId.do?netElementId=m1&queryParam=&startIndex=0&endIndex=15"
  then (("AB", none), s)
  else if url = "/configlet/getConfigletByName.do?name=A" then (("A", none), s)
  else if url = "/configlet/getConfigletByName.do?name=C" then (("C", none), s)
  else (("", some "not found"), s)

/-- Scenario remote on which every `Call` succeeds. -/
def scenarioClient : CvpClient Unit where
  Get := scenarioGet
  Call := fun _ _ s => (("", none), s)
  unmarshalConfiglet := scenarioUnmarshalConfiglet
  unmarshalConfigletList := scenarioUnmarshalConfigletList
  unmarshalJsonData := fun _ => ({ Data := none, ErrorCode := "", ErrorMessage := "" }, none)

/-- Scenario remote on which the staging call fails at the transport and every
other `Call` succeeds. -/
def stageFailClient : CvpClient Unit where
  Get := scenarioGet
  Call := fun _ url s =>
    if url = "/provisioning/addTempAction.do?format=topology&queryParam=&nodeId=root"
    then (("", some "connection reset by peer"), s)
    else (("", none), s)
  unmarshalConfiglet := scenarioUnmarshalConfiglet
  unmarshalConfigletList := scenarioUnmarshalConfigletList
  unmarshalJsonData := fun _ => ({ Data := none, ErrorCode := "", ErrorMessage := "" }, none)

/-- The initial world of the scenarios: nothing has been sent yet. -/
def world0 : World Unit := { remote := (), trace := [] }

/-- Number of `Call` invocations on path `url` in a trace. -/
def countCalls (url : String) : List Event → Nat
  | [] => 0
  | Event.get _ :: rest => countCalls url rest
  | Event.call _ u :: rest => (if u = url then 1 else 0) + countCalls url rest

/-! ## Specification-side definitions -/

/-- The equality rule in the specification's words: exact match on the
(name, key, config) triple. -/
def sameTriple (x y : Configlet) : Bool :=
  decide (x.Name = y.Name) && decide (x.Key = y.Key) && decide (x.Config = y.Config)

/-- The merge of the specification: `current` followed by the requested items
that match no item of `current`, in the order of `requested`. -/
def mergeSpec (current requested : List Configlet) : List Configlet :=
  current ++ requested.filter (fun x => !current.any (fun y => sameTriple y x))

/-- The filter of the specification: the items of `all` that match no item of
`toRemove`, in the order of `all`. -/
def filterOutSpec (all toRemove : List Configlet) : List Configlet :=
  all.filter (fun x => !toRemove.any (fun y => sameTriple y x))

/-- The remove invariant in the specification's words, for a final set and an
excluded set: their union is the pre-operation set, and listing both gives no
configlet twice (no duplicates, none present in both). -/
def RemoveInvariant (current final excluded : List Configlet) : Prop :=
  (∀ x, (x ∈ final ∨ x ∈ excluded) ↔ x ∈ current) ∧ (final ++ excluded).Nodup

/-- Path of the staging call, as in `addTempAction`. -/
def stagePath : String :=
  "/provisioning/addTempAction.do?format=topology&queryParam=&nodeId=root"

/-- Path of the commit call, as in `saveTopologyV2`. -/
def commitPath : String := "/provisioning/v2/saveTopology.do"

/-- The `Get` issued by `getConfigletByDeviceID` for a device key. -/
def deviceLookup (deviceMac : String) : Event :=
  Event.get ("/provisioning/getConfigletsByNetElementId.do?netElementId=" ++ deviceMac
    ++ "&queryParam=&startIndex=0&endIndex=15")

/-- The `Get` issued by `GetConfigletByName` for a name. -/
def nameLookup (cfglet : String) : Event :=
  Event.get ("/configlet/getConfigletByName.do?name=" ++ cfglet)

/-- The staging call carrying one action. -/
def stageOf (a : ApplyConfiglet) : Event :=
  Event.call (Body.applyData { Data := [a] }) stagePath

/-- The commit call carrying one action. -/
def commitOf (a : ApplyConfiglet) : Event :=
  Event.call (Body.applyData { Data := [a] }) commitPath

/-- The action literal built in `ApplyConfigletToDevice` from the merged list
(restated for the lemmas; the function itself builds it inline). -/
def applyActionOf (deviceIP deviceName deviceMac : String) (cfgletAll : List Configlet) :
    ApplyConfiglet :=
  { Info := "Configlet Assign to device: " ++ deviceName
    InfoPreview := "<b>Configlet assign</b> to Device " ++ deviceName
    Action := "associate"
    NodeIPAddress := deviceIP
    NodeTargetIPAddress := deviceIP
    NodeType := "configlet"
    ToID := deviceMac
    ToIDType := "netelement"
    ToName := deviceName
    ConfigletList := getKeys cfgletAll
    ConfigletNamesList := getNames cfgletAll
    ConfigletBuilderList := []
    ConfigletBuilderNamesList := []
    IgnoreConfigletList := []
    IgnoreConfigletNamesList := []
    IgnoreConfigletBuilderList := []
    IgnoreConfigletBuilderNamesList := []
    NodeID := ""
    FromID := ""
    NodeName := ""
    FromName := "" }

/-- The action literal built in `RemoveConfigletFromDevice` from the remaining
and the removal list (restated for the lemmas; the function itself builds it
inline). -/
def removeActionOf (deviceIP deviceName deviceMac : String)
    (cfgletRemain cfgletRemove : List Configlet) : ApplyConfiglet :=
  { Info := "Configlet Remove from device: " ++ deviceName
    InfoPreview := "<b>Configlet remove</b> from Device " ++ deviceName
    Action := "associate"
    NodeIPAddress := deviceIP
    NodeTargetIPAddress := deviceIP
    NodeType := "configlet"
    ToID := deviceMac
    ToIDType := "netelement"
    ToName := deviceName
    ConfigletList := getKeys cfgletRemain
    ConfigletNamesList := getNames cfgletRemain
    ConfigletBuilderList := []
    ConfigletBuilderNamesList := []
    IgnoreConfigletList := getKeys cfgletRemove
    IgnoreConfigletNamesList := getNames cfgletRemove
    IgnoreConfigletBuilderList := []
    IgnoreConfigletBuilderNamesList := []
    NodeID := ""
    FromID := ""
    NodeName := ""
    FromName := "" }

/-- Scenario remote on which the name lookup answers with a body that decodes,
without a decoding error, to a record with no key (the answer for a name that
does not exist). -/
def emptyKeyClient : CvpClient Unit where
  Get := fun _ s => (("NONE", none), s)
  Call := fun _ _ s => (("", none), s)
  unmarshalConfiglet := fun _ => ({ Config := "", Name := "", Key := "" }, none)
  unmarshalConfigletList := scenarioUnmarshalConfigletList
  unmarshalJsonData := fun _ => ({ Data := none, ErrorCode := "", ErrorMessage := "" }, none)

/-- Scenario remote on which the lookups and the transport succeed and the body
of the validate-and-compare response cannot be decoded. -/
def undecodableClient : CvpClient Unit where
  Get := scenarioGet
  Call := fun _ _ s => (("", none), s)
  unmarshalConfiglet := scenarioUnmarshalConfiglet
  unmarshalConfigletList := scenarioUnmarshalConfigletList
  unmarshalJsonData := fun _ =>
    ({ Data := none, ErrorCode := "", ErrorMessage := "" }, some "unexpected end of JSON input")

/-- Path of the validate-and-compare call, as in `ValidateReconcileAll`. -/
def validatePath : String := "/provisioning/v2/validateAndCompareConfiglets.do"

/-- The request `ValidateReconcileAll` submits for a device whose configlets
are `cfglets`. -/
def validateRequestOf (netElementID : String) (cfglets : List Configlet) : Body :=
  Body.validateRequest
    { NetElementID := netElementID
      ConfigIDList := cfglets.map (fun x => x.Key)
      PageType := "" }

/-- The not-found rule in the specification's words, at one lookup: a returned
record with an empty key comes with an error. -/
def NotFoundOnEmptyKey (c : CvpClient σ) (name : String) (w : World σ) : Prop :=
  (GetConfigletByName c name w).1.1.Key = "" → (GetConfigletByName c name w).1.2 ≠ none

/-- The surfacing rule in the specification's words, at one call of
`ValidateReconcileAll`: if the fetch of the device's configlets fails, or the
validate-and-compare call fails at the transport, or its response cannot be
decoded, or the decoded envelope has a non-empty error code, then the result is
an error. -/
def SurfacesFailures (c : CvpClient σ) (netElementID : String) (w : World σ) : Prop :=
  ((getConfigletByDeviceID c netElementID w).1.2 ≠ none
    ∨ (c.Call (validateRequestOf netElementID (getConfigletByDeviceID c netElementID w).1.1)
        validatePath (getConfigletByDeviceID c netElementID w).2.remote).1.2 ≠ none
    ∨ (c.unmarshalJsonData
        (c.Call (validateRequestOf netElementID (getConfigletByDeviceID c netElementID w).1.1)
          validatePath (getConfigletByDeviceID c netElementID w).2.remote).1.1).2 ≠ none
    ∨ (c.unmarshalJsonData
        (c.Call (validateRequestOf netElementID (getConfigletByDeviceID c netElementID w).1.1)
          validatePath (getConfigletByDeviceID c netElementID w).2.remote).1.1).1.ErrorCode ≠ "")
  → (ValidateReconcileAll c netElementID w).1 ≠ none

/-- The outcomes of looking the names up one by one, each lookup made in the
world left by the one before it. -/
def lookupsInOrder (c : CvpClient σ) : List String → World σ → List (Configlet × GoError)
  | [], _ => []
  | n :: rest, w =>
    (GetConfigletByName c n w).1 :: lookupsInOrder c rest (GetConfigletByName c n w).2

/-- The world left after looking the names up one by one. -/
def worldAfterLookups (c : CvpClient σ) : List String → World σ → World σ
  | [], w => w
  | n :: rest, w => worldAfterLookups c rest (GetConfigletByName c n w).2

/-! ## Helper lemmas for the reconciler -/

theorem contains_eq_true_iff (list : List Configlet) (elem : Configlet) :
    contains list elem = true ↔ elem ∈ list := by
  induction list with
  | nil => simp [contains]
  | cons t rest ih =>
    by_cases h : t = elem
    · simp [contains, h]
    · have h2 : ¬ elem = t := fun e => h e.symm
      simp [contains, h, h2, ih]

theorem filterCfgletLoop_eq (remove all stay : List Configlet) :
    filterCfgletLoop remove all stay
      = stay ++ all.filter (fun x => decide (x ∉ remove)) := by
  induction all generalizing stay with
  | nil => simp [filterCfgletLoop]
  | cons c rest ih =>
    by_cases h : c ∈ remove
    · have hc : contains remove c = true := (contains_eq_true_iff remove c).2 h
      simp [filterCfgletLoop, hc, h, ih]
    · have hc : contains remove c = false := by
        cases hb : contains remove c with
        | false => rfl
        | true => exact absurd ((contains_eq_true_iff remove c).1 hb) h
      simp [filterCfgletLoop, hc, h, ih]

theorem mergeCfgletLoop_eq (current new all : List Configlet) :
    mergeCfgletLoop current new all
      = all ++ new.filter (fun x => decide (x ∉ current)) := by
  induction new generalizing all with
  | nil => simp [mergeCfgletLoop]
  | cons c rest ih =>
    by_cases h : c ∈ current
    · have hc : contains current c = true := (contains_eq_true_iff current c).2 h
      simp [mergeCfgletLoop, hc, h, ih]
    · have hc : contains current c = false := by
        cases hb : contains current c with
        | false => rfl
        | true => exact absurd ((contains_eq_true_iff current c).1 hb) h
      simp [mergeCfgletLoop, hc, h, ih]

theorem projLoop_eq (f : Configlet → String) (cfglets : List Configlet)
    (result : List String) :
    projLoop f cfglets result = result ++ cfglets.map f := by
  induction cfglets generalizing result with
  | nil => simp [projLoop]
  | cons c rest ih => simp [projLoop, ih]

theorem getKeys_eq_map (cfglets : List Configlet) :
    getKeys cfglets = cfglets.map (fun c => c.Key) := by
  simp [getKeys, projLoop_eq]

theorem getNames_eq_map (cfglets : List Configlet) :
    getNames cfglets = cfglets.map (fun c => c.Name) := by
  simp [getNames, projLoop_eq]

theorem filterCfglet_fst (all remove : List Configlet) :
    (filterCfglet all remove).1 = all.filter (fun x => decide (x ∉ remove)) := by
  simp [filterCfglet, filterCfgletLoop_eq]

theorem mergeCfglet_fst (current new : List Configlet) :
    (mergeCfglet current new).1
      = current ++ new.filter (fun x => decide (x ∉ current)) := by
  simp [mergeCfglet, mergeCfgletLoop_eq]

theorem sameTriple_eq_true_iff (x y : Configlet) : sameTriple x y = true ↔ x = y := by
  cases x
  cases y
  simp [sameTriple]
  tauto

theorem any_sameTriple_iff (l : List Configlet) (x : Configlet) :
    l.any (fun y => sameTriple y x) = true ↔ x ∈ l := by
  simp only [List.any_eq_true, sameTriple_eq_true_iff]
  constructor
  · rintro ⟨y, hy, rfl⟩
    exact hy
  · intro h
    exact ⟨x, h, rfl⟩

theorem mergeSpec_eq (current requested : List Configlet) :
    mergeSpec current requested
      = current ++ requested.filter (fun x => decide (x ∉ current)) := by
  unfold mergeSpec
  congr 1
  apply List.filter_congr
  intro x _
  by_cases h : x ∈ current
  · simp [h, (any_sameTriple_iff current x).2 h]
  · have : current.any (fun y => sameTriple y x) = false := by
      cases hb : current.any (fun y => sameTriple y x) with
      | false => rfl
      | true => exact absurd ((any_sameTriple_iff current x).1 hb) h
    simp [h, this]

theorem filterOutSpec_eq (all toRemove : List Configlet) :
    filterOutSpec all toRemove = all.filter (fun x => decide (x ∉ toRemove)) := by
  unfold filterOutSpec
  apply List.filter_congr
  intro x _
  by_cases h : x ∈ toRemove
  · simp [h, (any_sameTriple_iff toRemove x).2 h]
  · have : toRemove.any (fun y => sameTriple y x) = false := by
      cases hb : toRemove.any (fun y => sameTriple y x) with
      | false => rfl
      | true => exact absurd ((any_sameTriple_iff toRemove x).1 hb) h
    simp [h, this]

theorem mem_filterCfglet_iff (all remove : List Configlet) (x : Configlet) :
    x ∈ (filterCfglet all remove).1 ↔ x ∈ all ∧ x ∉ remove := by
  simp [filterCfglet_fst, List.mem_filter]

/-! ## Set reconciler: claims -/

/-- C1: `mergeCfglet current requested` is exactly `current` followed by the
items of `requested` that are equal on (name, key, config) to no item of
`current`, in the order of `requested`; `current` is a prefix of the result and
the returned error is nil. -/
theorem mergeCfglet_spec (current requested : List Configlet) :
    mergeCfglet current requested = (mergeSpec current requested, none)
    ∧ current <+: (mergeCfglet current requested).1
    ∧ (mergeCfglet current requested).2 = none := by
  refine ⟨?_, ?_, rfl⟩
  · rw [mergeSpec_eq]
    simp [mergeCfglet, mergeCfgletLoop_eq]
  · rw [mergeCfglet_fst]
    exact List.prefix_append _ _

/-- C2: merging the same `requested` list a second time changes nothing:
`mergeCfglet (mergeCfglet current requested) requested` equals
`mergeCfglet current requested`, for all lists (duplicates included). -/
theorem mergeCfglet_idempotent (current requested : List Configlet) :
    mergeCfglet (mergeCfglet current requested).1 requested
      = mergeCfglet current requested := by
  have h : (mergeCfglet (mergeCfglet current requested).1 requested).1
      = (mergeCfglet current requested).1 := by
    rw [mergeCfglet_fst (mergeCfglet current requested).1 requested]
    have hnil : requested.filter
        (fun x => decide (x ∉ (mergeCfglet current requested).1)) = [] := by
      rw [List.filter_eq_nil_iff]
      intro x hx
      rw [mergeCfglet_fst]
      by_cases hc : x ∈ current
      · simp [hc]
      · simp [hc, hx]
    rw [hnil, List.append_nil]
  exact Prod.ext h rfl

/-- C3: `filterCfglet all toRemove` is exactly the items of `all` that are
equal on (name, key, config) to no item of `toRemove`, in the order of `all`,
with a nil error; with an empty `toRemove` it returns `all` unchanged. -/
theorem filterCfglet_spec (all toRemove : List Configlet) :
    filterCfglet all toRemove = (filterOutSpec all toRemove, none)
    ∧ filterCfglet all [] = (all, none) := by
  constructor
  · rw [filterOutSpec_eq]
    simp [filterCfglet, filterCfgletLoop_eq]
  · simp [filterCfglet, filterCfgletLoop_eq]

/-- C4: remove completeness: every item of `current` is in exactly one of
`filterCfglet current removal` and `removal`, and the filtered list together
with the items of `current` that are present in `removal` is a rearrangement of
`current`. -/
theorem filterCfglet_complete (current removal : List Configlet) :
    (∀ x, x ∈ current →
      ((x ∈ (filterCfglet current removal).1 ∧ x ∉ removal)
        ∨ (x ∉ (filterCfglet current removal).1 ∧ x ∈ removal)))
    ∧ List.Perm
        ((filterCfglet current removal).1 ++ current.filter (fun x => decide (x ∈ removal)))
        current := by
  constructor
  · intro x hx
    by_cases hr : x ∈ removal
    · right
      exact ⟨fun h => ((mem_filterCfglet_iff current removal x).1 h).2 hr, hr⟩
    · left
      exact ⟨(mem_filterCfglet_iff current removal x).2 ⟨hx, hr⟩, hr⟩
  · rw [filterCfglet_fst]
    have h := List.filter_append_perm (fun x => decide (x ∈ removal)) current
    have h2 : current.filter (fun x => decide (x ∉ removal))
        = current.filter (fun x => !decide (x ∈ removal)) := by
      apply List.filter_congr
      intro x _
      simp
    rw [h2]
    exact List.perm_append_comm.trans h

/-- Witness for C4 on `current = [A, B]`, `removal = [A, C]`. -/
theorem filterCfglet_complete_witness :
    (∀ x, x ∈ [cfgA, cfgB] →
      ((x ∈ (filterCfglet [cfgA, cfgB] [cfgA, cfgC]).1 ∧ x ∉ [cfgA, cfgC])
        ∨ (x ∉ (filterCfglet [cfgA, cfgB] [cfgA, cfgC]).1 ∧ x ∈ [cfgA, cfgC])))
    ∧ List.Perm
        ((filterCfglet [cfgA, cfgB] [cfgA, cfgC]).1
          ++ [cfgA, cfgB].filter (fun x => decide (x ∈ [cfgA, cfgC])))
        [cfgA, cfgB] :=
  filterCfglet_complete [cfgA, cfgB] [cfgA, cfgC]

/-- C5 as stated fails: with `current = [A]` and a resolved removal list `[B]`
the final set is `[A]` and the excluded set is `[B]`, whose union is not
`current`. -/
theorem remove_invariant_counterexample :
    ¬ RemoveInvariant [cfgA] (filterCfglet [cfgA] [cfgB]).1 [cfgB] := by
  intro h
  have hB : cfgB ∈ [cfgA] := (h.1 cfgB).1 (Or.inr (by decide))
  exact absurd hB (by decide)

/-- C5 amended: the final set `filterCfglet current removal` and the excluded
set `removal` share no configlet; every item of `current` is in one of them and
every item of the final set is in `current`; the specification's invariant
holds exactly when every removal item is in `current` and neither the final set
nor the removal list repeats an item; in particular it holds when `removal` is
drawn from `current` and neither list repeats an item. -/
theorem remove_sets_amended (current removal : List Configlet) :
    (∀ x, x ∈ (filterCfglet current removal).1 → x ∉ removal)
    ∧ (∀ x, x ∈ current → (x ∈ (filterCfglet current removal).1 ∨ x ∈ removal))
    ∧ (∀ x, x ∈ (filterCfglet current removal).1 → x ∈ current)
    ∧ (RemoveInvariant current (filterCfglet current removal).1 removal
        ↔ ((∀ x, x ∈ removal → x ∈ current)
            ∧ (filterCfglet current removal).1.Nodup ∧ removal.Nodup))
    ∧ ((∀ x, x ∈ removal → x ∈ current) → current.Nodup → removal.Nodup →
        RemoveInvariant current (filterCfglet current removal).1 removal) := by
  have hdisj : ∀ x, x ∈ (filterCfglet current removal).1 → x ∉ removal :=
    fun x h => ((mem_filterCfglet_iff current removal x).1 h).2
  have hcov : ∀ x, x ∈ current → (x ∈ (filterCfglet current removal).1 ∨ x ∈ removal) := by
    intro x hx
    by_cases hr : x ∈ removal
    · exact Or.inr hr
    · exact Or.inl ((mem_filterCfglet_iff current removal x).2 ⟨hx, hr⟩)
  have hsub : ∀ x, x ∈ (filterCfglet current removal).1 → x ∈ current :=
    fun x h => ((mem_filterCfglet_iff current removal x).1 h).1
  have hiff : RemoveInvariant current (filterCfglet current removal).1 removal
        ↔ ((∀ x, x ∈ removal → x ∈ current)
            ∧ (filterCfglet current removal).1.Nodup ∧ removal.Nodup) := by
    constructor
    · rintro ⟨hu, hn⟩
      rw [List.nodup_append] at hn
      exact ⟨fun x hx => (hu x).1 (Or.inr hx), hn.1, hn.2.1⟩
    · rintro ⟨hs, hf, hr⟩
      refine ⟨fun x => ⟨fun h => h.elim (hsub x) (hs x), hcov x⟩, ?_⟩
      rw [List.nodup_append]
      exact ⟨hf, hr, fun x h1 h2 => hdisj x h1 h2⟩
  refine ⟨hdisj, hcov, hsub, hiff, ?_⟩
  intro hs hc hr
  refine hiff.2 ⟨hs, ?_, hr⟩
  rw [filterCfglet_fst]
  exact hc.filter _

/-- Witness for C5 amended on `current = [A, B]`, `removal = [A]`: the
hypotheses of the last part hold and so does the invariant. -/
theorem remove_sets_amended_witness :
    (∀ x, x ∈ [cfgA] → x ∈ [cfgA, cfgB]) ∧ [cfgA, cfgB].Nodup ∧ [cfgA].Nodup
    ∧ RemoveInvariant [cfgA, cfgB] (filterCfglet [cfgA, cfgB] [cfgA]).1 [cfgA] :=
  ⟨by decide, by decide, by decide,
    (remove_sets_amended [cfgA, cfgB] [cfgA]).2.2.2.2 (by decide) (by decide) (by decide)⟩

/-! ## Response envelope: claims -/

/-- C10: `checkErrors` returns an error if and only if `ErrorCode` is
non-empty; that error is `CVP returned error code: <code>, <message>`, carrying
the remote code and message; with an empty `ErrorCode` it returns nil whatever
`ErrorMessage` and `Data` hold. -/
theorem checkErrors_spec (data : JsonData) :
    ((checkErrors data ≠ none) ↔ data.ErrorCode ≠ "")
    ∧ (data.ErrorCode ≠ "" → checkErrors data
        = some ("CVP returned error code: " ++ data.ErrorCode ++ ", " ++ data.ErrorMessage))
    ∧ (∀ d m, checkErrors { Data := d, ErrorCode := "", ErrorMessage := m } = none)
    ∧ checkErrors { Data := none, ErrorCode := "INVALID", ErrorMessage := "bad key" }
        = some "CVP returned error code: INVALID, bad key" := by
  refine ⟨?_, ?_, ?_, ?_⟩
  · by_cases h : data.ErrorCode = "" <;> simp [checkErrors, h]
  · intro h
    simp [checkErrors, h]
  · intro d m
    simp [checkErrors]
  · decide

/-- Witness for C10 on the envelope `INVALID` / `bad key`. -/
theorem checkErrors_spec_witness :
    ("INVALID" ≠ "")
    ∧ checkErrors { Data := none, ErrorCode := "INVALID", ErrorMessage := "bad key" }
        = some ("CVP returned error code: " ++ "INVALID" ++ ", " ++ "bad key") :=
  ⟨by decide,
    (checkErrors_spec { Data := none, ErrorCode := "INVALID", ErrorMessage := "bad key" }).2.1
      (by decide)⟩

/-! ## Helper lemmas for the staged commit protocol -/

theorem countCalls_append (url : String) (xs ys : List Event) :
    countCalls url (xs ++ ys) = countCalls url xs + countCalls url ys := by
  induction xs with
  | nil => simp [countCalls]
  | cons e rest ih =>
    cases e with
    | get u => simp [countCalls, ih]
    | call b u => simp [countCalls, ih, Nat.add_assoc]

theorem countCalls_nameLookups (url : String) (names : List String) :
    countCalls url (names.map nameLookup) = 0 := by
  induction names with
  | nil => simp [countCalls]
  | cons n rest ih => simp [countCalls, nameLookup, ih]

theorem getConfigletByDeviceID_trace (c : CvpClient σ) (deviceMac : String) (w : World σ) :
    (getConfigletByDeviceID c deviceMac w).2.trace = w.trace ++ [deviceLookup deviceMac] := by
  simp only [getConfigletByDeviceID]
  split <;> rfl

theorem GetConfigletByName_trace (c : CvpClient σ) (cfglet : String) (w : World σ) :
    (GetConfigletByName c cfglet w).2.trace = w.trace ++ [nameLookup cfglet] := by
  simp only [GetConfigletByName]
  split <;> rfl

theorem getConfigletsByNameLoop_trace (c : CvpClient σ) (names : List String)
    (result : List Configlet) (w : World σ)
    (h : (getConfigletsByNameLoop c names result w).1.2 = none) :
    (getConfigletsByNameLoop c names result w).2.trace
      = w.trace ++ names.map nameLookup := by
  induction names generalizing result w with
  | nil => simp [getConfigletsByNameLoop]
  | cons n rest ih =>
    simp only [getConfigletsByNameLoop] at h ⊢
    cases he : (GetConfigletByName c n w).1.2 with
    | some e => simp [he] at h
    | none =>
      simp only [he] at h ⊢
      rw [ih _ _ h, GetConfigletByName_trace]
      simp

theorem lookups_trace (c : CvpClient σ) (deviceMac : String) (names : List String)
    (w : World σ)
    (h2 : (getConfigletsByName c names (getConfigletByDeviceID c deviceMac w).2).1.2 = none) :
    (getConfigletsByName c names (getConfigletByDeviceID c deviceMac w).2).2.trace
      = w.trace ++ deviceLookup deviceMac :: names.map nameLookup := by
  unfold getConfigletsByName at h2 ⊢
  rw [getConfigletsByNameLoop_trace c names [] _ h2, getConfigletByDeviceID_trace]
  simp

theorem addTempAction_trace (c : CvpClient σ) (a : ApplyConfiglet) (w : World σ) :
    (addTempAction c a w).2.trace = w.trace ++ [stageOf a] := rfl

theorem saveTopologyV2_trace (c : CvpClient σ) (a : ApplyConfiglet) (w : World σ) :
    (saveTopologyV2 c a w).2.trace = w.trace ++ [commitOf a] := rfl

theorem apply_core (c : CvpClient σ) (deviceIP deviceName deviceMac : String)
    (cnl : List String) (save : Bool) (w : World σ)
    (h1 : (getConfigletByDeviceID c deviceMac w).1.2 = none)
    (h2 : (getConfigletsByName c cnl (getConfigletByDeviceID c deviceMac w).2).1.2 = none) :
    ApplyConfigletToDevice c deviceIP deviceName deviceMac cnl save w
      = (if save then
          saveTopologyV2 c
            (applyActionOf deviceIP deviceName deviceMac
              (mergeCfglet (getConfigletByDeviceID c deviceMac w).1.1
                (getConfigletsByName c cnl (getConfigletByDeviceID c deviceMac w).2).1.1).1)
            (addTempAction c
              (applyActionOf deviceIP deviceName deviceMac
                (mergeCfglet (getConfigletByDeviceID c deviceMac w).1.1
                  (getConfigletsByName c cnl (getConfigletByDeviceID c deviceMac w).2).1.1).1)
              (getConfigletsByName c cnl (getConfigletByDeviceID c deviceMac w).2).2).2
        else addTempAction c
            (applyActionOf deviceIP deviceName deviceMac
              (mergeCfglet (getConfigletByDeviceID c deviceMac w).1.1
                (getConfigletsByName c cnl (getConfigletByDeviceID c deviceMac w).2).1.1).1)
            (getConfigletsByName c cnl (getConfigletByDeviceID c deviceMac w).2).2) := by
  simp only [ApplyConfigletToDevice, h1, h2]
  rfl

theorem remove_core (c : CvpClient σ) (deviceIP deviceName deviceMac : String)
    (names : List String) (save : Bool) (w : World σ)
    (h1 : (getConfigletByDeviceID c deviceMac w).1.2 = none)
    (h2 : (getConfigletsByName c names (getConfigletByDeviceID c deviceMac w).2).1.2 = none) :
    RemoveConfigletFromDevice c deviceIP deviceName deviceMac names save w
      = (if save then
          saveTopologyV2 c
            (removeActionOf deviceIP deviceName deviceMac
              (filterCfglet (getConfigletByDeviceID c deviceMac w).1.1
                (getConfigletsByName c names (getConfigletByDeviceID c deviceMac w).2).1.1).1
              (getConfigletsByName c names (getConfigletByDeviceID c deviceMac w).2).1.1)
            (addTempAction c
              (removeActionOf deviceIP deviceName deviceMac
                (filterCfglet (getConfigletByDeviceID c deviceMac w).1.1
                  (getConfigletsByName c names (getConfigletByDeviceID c deviceMac w).2).1.1).1
                (getConfigletsByName c names (getConfigletByDeviceID c deviceMac w).2).1.1)
              (getConfigletsByName c names (getConfigletByDeviceID c deviceMac w).2).2).2
        else addTempAction c
            (removeActionOf deviceIP deviceName deviceMac
              (filterCfglet (getConfigletByDeviceID c deviceMac w).1.1
                (getConfigletsByName c names (getConfigletByDeviceID c deviceMac w).2).1.1).1
              (getConfigletsByName c names (getConfigletByDeviceID c deviceMac w).2).1.1)
            (getConfigletsByName c names (getConfigletByDeviceID c deviceMac w).2).2) := by
  simp only [RemoveConfigletFromDevice, h1, h2]
  rfl

/-! ## Staged commit protocol: claims -/

/-- C6 (code defect): on a remote whose staging call fails at the transport,
`ApplyConfigletToDevice` and `RemoveConfigletFromDevice` with `save = true`
still issue the commit call once and return its nil result, so the staging
error is lost; with `save = false` the staging error is returned and no commit
call is issued. -/
theorem commit_issued_after_failed_stage :
    (∀ body s, (stageFailClient.Call body stagePath s).1.2 = some "connection reset by peer")
    ∧ (ApplyConfigletToDevice stageFailClient "10.0.0.1" "dev" "m1" ["C"] true world0).1 = none
    ∧ countCalls commitPath
        (ApplyConfigletToDevice stageFailClient "10.0.0.1" "dev" "m1" ["C"] true world0).2.trace = 1
    ∧ (RemoveConfigletFromDevice stageFailClient "10.0.0.1" "dev" "m1" ["A"] true world0).1 = none
    ∧ countCalls commitPath
        (RemoveConfigletFromDevice stageFailClient "10.0.0.1" "dev" "m1" ["A"] true world0).2.trace = 1
    ∧ (ApplyConfigletToDevice stageFailClient "10.0.0.1" "dev" "m1" ["C"] false world0).1
        = some "connection reset by peer"
    ∧ countCalls commitPath
        (ApplyConfigletToDevice stageFailClient "10.0.0.1" "dev" "m1" ["C"] false world0).2.trace = 0 := by
  refine ⟨?_, ?_, ?_, ?_, ?_, ?_, ?_⟩
  · intro body s
    rfl
  all_goals decide

/-- C7: when both directory lookups succeed, `ApplyConfigletToDevice` and
`RemoveConfigletFromDevice` send, after the lookups, the staging call exactly
once and then the commit call once with the same action if `save` is true and
never if `save` is false; with `save` false the result is the staging call's
result. -/
theorem stage_once_commit_iff_save (c : CvpClient σ) (deviceIP deviceName deviceMac : String)
    (names : List String) (save : Bool) (w : World σ)
    (h1 : (getConfigletByDeviceID c deviceMac w).1.2 = none)
    (h2 : (getConfigletsByName c names (getConfigletByDeviceID c deviceMac w).2).1.2 = none) :
    (∃ a : ApplyConfiglet,
      (ApplyConfigletToDevice c deviceIP deviceName deviceMac names save w).2.trace
        = w.trace ++ (deviceLookup deviceMac :: names.map nameLookup)
            ++ stageOf a :: (if save then [commitOf a] else [])
      ∧ (save = false →
          (ApplyConfigletToDevice c deviceIP deviceName deviceMac names save w).1
            = (addTempAction c a
                (getConfigletsByName c names (getConfigletByDeviceID c deviceMac w).2).2).1))
    ∧ (∃ a : ApplyConfiglet,
      (RemoveConfigletFromDevice c deviceIP deviceName deviceMac names save w).2.trace
        = w.trace ++ (deviceLookup deviceMac :: names.map nameLookup)
            ++ stageOf a :: (if save then [commitOf a] else [])
      ∧ (save = false →
          (RemoveConfigletFromDevice c deviceIP deviceName deviceMac names save w).1
            = (addTempAction c a
                (getConfigletsByName c names (getConfigletByDeviceID c deviceMac w).2).2).1))
    ∧ (∀ a : ApplyConfiglet,
        countCalls stagePath ((deviceLookup deviceMac :: names.map nameLookup)
            ++ stageOf a :: (if save then [commitOf a] else [])) = 1
        ∧ countCalls commitPath ((deviceLookup deviceMac :: names.map nameLookup)
            ++ stageOf a :: (if save then [commitOf a] else [])) = (if save then 1 else 0)) := by
  have ht := lookups_trace c deviceMac names w h2
  refine ⟨⟨applyActionOf deviceIP deviceName deviceMac
      (mergeCfglet (getConfigletByDeviceID c deviceMac w).1.1
        (getConfigletsByName c names (getConfigletByDeviceID c deviceMac w).2).1.1).1, ?_, ?_⟩,
    ⟨removeActionOf deviceIP deviceName deviceMac
      (filterCfglet (getConfigletByDeviceID c deviceMac w).1.1
        (getConfigletsByName c names (getConfigletByDeviceID c deviceMac w).2).1.1).1
      (getConfigletsByName c names (getConfigletByDeviceID c deviceMac w).2).1.1, ?_, ?_⟩, ?_⟩
  · rw [apply_core c deviceIP deviceName deviceMac names save w h1 h2]
    cases save
    · simp [addTempAction_trace, ht]
    · simp [addTempAction_trace, saveTopologyV2_trace, ht]
  · intro hs
    rw [apply_core c deviceIP deviceName deviceMac names save w h1 h2, hs]
    rfl
  · rw [remove_core c deviceIP deviceName deviceMac names save w h1 h2]
    cases save
    · simp [addTempAction_trace, ht]
    · simp [addTempAction_trace, saveTopologyV2_trace, ht]
  · intro hs
    rw [remove_core c deviceIP deviceName deviceMac names save w h1 h2, hs]
    rfl
  · intro a
    have hs : stagePath ≠ commitPath := by decide
    have hs2 : commitPath ≠ stagePath := by decide
    cases save <;>
      simp [countCalls_append, countCalls, deviceLookup, countCalls_nameLookups,
        stageOf, commitOf, hs, hs2]

/-- Witness for C7: on the scenario remote, applying `C` to device `m1` with
`save = false` sends the two lookups and one staging call, no commit call, and
returns the staging call's result. -/
theorem stage_once_commit_iff_save_witness :
    (getConfigletByDeviceID scenarioClient "m1" world0).1.2 = none
    ∧ (getConfigletsByName scenarioClient ["C"]
        (getConfigletByDeviceID scenarioClient "m1" world0).2).1.2 = none
    ∧ (∃ a : ApplyConfiglet,
      (ApplyConfigletToDevice scenarioClient "10.0.0.1" "dev" "m1" ["C"] false world0).2.trace
        = world0.trace ++ (deviceLookup "m1" :: ["C"].map nameLookup)
            ++ stageOf a :: (if false then [commitOf a] else [])
      ∧ (false = false →
          (ApplyConfigletToDevice scenarioClient "10.0.0.1" "dev" "m1" ["C"] false world0).1
            = (addTempAction scenarioClient a
                (getConfigletsByName scenarioClient ["C"]
                  (getConfigletByDeviceID scenarioClient "m1" world0).2).2).1)) :=
  ⟨by decide, by decide,
    (stage_once_commit_iff_save scenarioClient "10.0.0.1" "dev" "m1" ["C"] false world0
      (by decide) (by decide)).1⟩

/-- C8: when the device lookup yields `current` and the names resolve to
`resolved`, the action `ApplyConfigletToDevice` stages (and commits, if `save`)
has Action `associate`, ToIDType `netelement`, ToID the device key,
ConfigletList the keys and ConfigletNamesList the names of
`mergeCfglet current resolved` in order, and empty ignore and Builder lists. -/
theorem apply_stages_merged_action (c : CvpClient σ) (deviceIP deviceName deviceMac : String)
    (cnl : List String) (save : Bool) (w : World σ) (current resolved : List Configlet)
    (hc : (getConfigletByDeviceID c deviceMac w).1 = (current, none))
    (hr : (getConfigletsByName c cnl (getConfigletByDeviceID c deviceMac w).2).1
        = (resolved, none)) :
    ∃ a : ApplyConfiglet,
      (ApplyConfigletToDevice c deviceIP deviceName deviceMac cnl save w).2.trace
        = (getConfigletsByName c cnl (getConfigletByDeviceID c deviceMac w).2).2.trace
            ++ stageOf a :: (if save then [commitOf a] else [])
      ∧ a.Action = "associate" ∧ a.ToIDType = "netelement" ∧ a.ToID = deviceMac
      ∧ a.ConfigletList = (mergeCfglet current resolved).1.map (fun x => x.Key)
      ∧ a.ConfigletNamesList = (mergeCfglet current resolved).1.map (fun x => x.Name)
      ∧ a.IgnoreConfigletList = [] ∧ a.IgnoreConfigletNamesList = []
      ∧ a.ConfigletBuilderList = [] ∧ a.ConfigletBuilderNamesList = []
      ∧ a.IgnoreConfigletBuilderList = [] ∧ a.IgnoreConfigletBuilderNamesList = [] := by
  have h1 : (getConfigletByDeviceID c deviceMac w).1.2 = none := by rw [hc]
  have h2 : (getConfigletsByName c cnl (getConfigletByDeviceID c deviceMac w).2).1.2 = none := by
    rw [hr]
  have e1 : (getConfigletByDeviceID c deviceMac w).1.1 = current := by rw [hc]
  have e2 : (getConfigletsByName c cnl (getConfigletByDeviceID c deviceMac w).2).1.1
      = resolved := by rw [hr]
  refine ⟨applyActionOf deviceIP deviceName deviceMac (mergeCfglet current resolved).1,
    ?_, rfl, rfl, rfl, ?_, ?_, rfl, rfl, rfl, rfl, rfl, rfl⟩
  · rw [apply_core c deviceIP deviceName deviceMac cnl save w h1 h2, e1, e2]
    cases save
    · simp [addTempAction_trace]
    · simp [addTempAction_trace, saveTopologyV2_trace]
  · exact getKeys_eq_map _
  · exact getNames_eq_map _

/-- Witness for C8, the scenario of the specification: the device holds `A`
and `B` (keys 1, 2) and the request `C` resolves to key 3. -/
theorem apply_stages_merged_action_witness :
    (getConfigletByDeviceID scenarioClient "m1" world0).1 = ([cfgA, cfgB], none)
    ∧ (getConfigletsByName scenarioClient ["C"]
        (getConfigletByDeviceID scenarioClient "m1" world0).2).1 = ([cfgC], none)
    ∧ ∃ a : ApplyConfiglet,
      (ApplyConfigletToDevice scenarioClient "10.0.0.1" "dev" "m1" ["C"] true world0).2.trace
        = (getConfigletsByName scenarioClient ["C"]
            (getConfigletByDeviceID scenarioClient "m1" world0).2).2.trace
            ++ stageOf a :: (if true then [commitOf a] else [])
      ∧ a.Action = "associate" ∧ a.ToIDType = "netelement" ∧ a.ToID = "m1"
      ∧ a.ConfigletList = ["1", "2", "3"]
      ∧ a.ConfigletNamesList = ["A", "B", "C"]
      ∧ a.IgnoreConfigletList = [] ∧ a.IgnoreConfigletNamesList = []
      ∧ a.ConfigletBuilderList = [] ∧ a.ConfigletBuilderNamesList = []
      ∧ a.IgnoreConfigletBuilderList = [] ∧ a.IgnoreConfigletBuilderNamesList = [] :=
  ⟨by decide, by decide,
    apply_stages_merged_action scenarioClient "10.0.0.1" "dev" "m1" ["C"] true world0
      [cfgA, cfgB] [cfgC] (by decide) (by decide)⟩

/-- C9: when the device lookup yields `current` and the names resolve to
`removal`, the action `RemoveConfigletFromDevice` stages (and commits, if
`save`) has ConfigletList / ConfigletNamesList the keys / names of
`filterCfglet current removal`, IgnoreConfigletList / IgnoreConfigletNamesList
the keys / names of `removal`, and empty Builder lists. -/
theorem remove_stages_remaining_and_removal (c : CvpClient σ)
    (deviceIP deviceName deviceMac : String)
    (names : List String) (save : Bool) (w : World σ) (current removal : List Configlet)
    (hc : (getConfigletByDeviceID c deviceMac w).1 = (current, none))
    (hr : (getConfigletsByName c names (getConfigletByDeviceID c deviceMac w).2).1
        = (removal, none)) :
    ∃ a : ApplyConfiglet,
      (RemoveConfigletFromDevice c deviceIP deviceName deviceMac names save w).2.trace
        = (getConfigletsByName c names (getConfigletByDeviceID c deviceMac w).2).2.trace
            ++ stageOf a :: (if save then [commitOf a] else [])
      ∧ a.ConfigletList = (filterCfglet current removal).1.map (fun x => x.Key)
      ∧ a.ConfigletNamesList = (filterCfglet current removal).1.map (fun x => x.Name)
      ∧ a.IgnoreConfigletList = removal.map (fun x => x.Key)
      ∧ a.IgnoreConfigletNamesList = removal.map (fun x => x.Name)
      ∧ a.ConfigletBuilderList = [] ∧ a.ConfigletBuilderNamesList = []
      ∧ a.IgnoreConfigletBuilderList = [] ∧ a.IgnoreConfigletBuilderNamesList = [] := by
  have h1 : (getConfigletByDeviceID c deviceMac w).1.2 = none := by rw [hc]
  have h2 : (getConfigletsByName c names (getConfigletByDeviceID c deviceMac w).2).1.2
      = none := by rw [hr]
  have e1 : (getConfigletByDeviceID c deviceMac w).1.1 = current := by rw [hc]
  have e2 : (getConfigletsByName c names (getConfigletByDeviceID c deviceMac w).2).1.1
      = removal := by rw [hr]
  refine ⟨removeActionOf deviceIP deviceName deviceMac (filterCfglet current removal).1 removal,
    ?_, ?_, ?_, ?_, ?_, rfl, rfl, rfl, rfl⟩
  · rw [remove_core c deviceIP deviceName deviceMac names save w h1 h2, e1, e2]
    cases save
    · simp [addTempAction_trace]
    · simp [addTempAction_trace, saveTopologyV2_trace]
  · exact getKeys_eq_map _
  · exact getNames_eq_map _
  · exact getKeys_eq_map _
  · exact getNames_eq_map _

/-- Witness for C9, the scenario of the specification: the device holds `A`
and `B` (keys 1, 2) and `A` is removed. -/
theorem remove_stages_remaining_and_removal_witness :
    (getConfigletByDeviceID scenarioClient "m1" world0).1 = ([cfgA, cfgB], none)
    ∧ (getConfigletsByName scenarioClient ["A"]
        (getConfigletByDeviceID scenarioClient "m1" world0).2).1 = ([cfgA], none)
    ∧ ∃ a : ApplyConfiglet,
      (RemoveConfigletFromDevice scenarioClient "10.0.0.1" "dev" "m1" ["A"] true world0).2.trace
        = (getConfigletsByName scenarioClient ["A"]
            (getConfigletByDeviceID scenarioClient "m1" world0).2).2.trace
            ++ stageOf a :: (if true then [commitOf a] else [])
      ∧ a.ConfigletList = ["2"]
      ∧ a.ConfigletNamesList = ["B"]
      ∧ a.IgnoreConfigletList = ["1"]
      ∧ a.IgnoreConfigletNamesList = ["A"]
      ∧ a.ConfigletBuilderList = [] ∧ a.ConfigletBuilderNamesList = []
      ∧ a.IgnoreConfigletBuilderList = [] ∧ a.IgnoreConfigletBuilderNamesList = [] :=
  ⟨by decide, by decide,
    remove_stages_remaining_and_removal scenarioClient "10.0.0.1" "dev" "m1" ["A"] true world0
      [cfgA, cfgB] [cfgA] (by decide) (by decide)⟩

/-! ## Helper lemmas for the directory accessor and the validation workflow -/

theorem GetConfigletByName_fst (c : CvpClient σ) (cfglet : String) (w : World σ) :
    (GetConfigletByName c cfglet w).1
      = c.unmarshalConfiglet
          (c.Get ("/configlet/getConfigletByName.do?name=" ++ cfglet) w.remote).1.1 := by
  simp only [GetConfigletByName, doGet]
  split
  · rename_i e he
    exact Prod.ext rfl he.symm
  · rename_i he
    exact Prod.ext rfl he.symm

theorem ValidateReconcileAll_fst (c : CvpClient σ) (netElementID : String) (w : World σ) :
    (ValidateReconcileAll c netElementID w).1
      = checkErrors (c.unmarshalJsonData
          (c.Call (validateRequestOf netElementID (getConfigletByDeviceID c netElementID w).1.1)
            validatePath (getConfigletByDeviceID c netElementID w).2.remote).1.1).1 := by
  simp only [ValidateReconcileAll, doCall, validateRequestOf, validatePath, getKeys_eq_map]

theorem ValidateReconcileAll_trace (c : CvpClient σ) (netElementID : String) (w : World σ) :
    (ValidateReconcileAll c netElementID w).2.trace
      = w.trace ++ [deviceLookup netElementID,
          Event.call (validateRequestOf netElementID
            (getConfigletByDeviceID c netElementID w).1.1) validatePath] := by
  simp only [ValidateReconcileAll, doCall, validateRequestOf, validatePath, getKeys_eq_map,
    getConfigletByDeviceID_trace]
  simp

theorem checkErrors_ne_none_iff (data : JsonData) :
    checkErrors data ≠ none ↔ data.ErrorCode ≠ "" := by
  by_cases h : data.ErrorCode = "" <;> simp [checkErrors, h]

theorem lookupsInOrder_length (c : CvpClient σ) (names : List String) (w : World σ) :
    (lookupsInOrder c names w).length = names.length := by
  induction names generalizing w with
  | nil => rfl
  | cons n rest ih => simp [lookupsInOrder, ih]

theorem worldAfterLookups_trace (c : CvpClient σ) (names : List String) (w : World σ) :
    (worldAfterLookups c names w).trace = w.trace ++ names.map nameLookup := by
  induction names generalizing w with
  | nil => simp [worldAfterLookups]
  | cons n rest ih =>
    simp only [worldAfterLookups]
    rw [ih, GetConfigletByName_trace]
    simp

theorem getConfigletsByNameLoop_success (c : CvpClient σ) (names : List String)
    (result : List Configlet) (w : World σ)
    (h : ∀ r ∈ lookupsInOrder c names w, r.2 = none) :
    getConfigletsByNameLoop c names result w
      = ((result ++ (lookupsInOrder c names w).map Prod.fst, none),
          worldAfterLookups c names w) := by
  induction names generalizing result w with
  | nil => simp [getConfigletsByNameLoop, lookupsInOrder, worldAfterLookups]
  | cons n rest ih =>
    have hn : (GetConfigletByName c n w).1.2 = none :=
      h _ (by simp [lookupsInOrder])
    have hrest : ∀ r ∈ lookupsInOrder c rest (GetConfigletByName c n w).2, r.2 = none :=
      fun r hr => h r (by simp [lookupsInOrder, hr])
    simp only [getConfigletsByNameLoop, hn]
    rw [ih _ _ hrest]
    simp [lookupsInOrder, worldAfterLookups]

theorem getConfigletsByNameLoop_failure (c : CvpClient σ) (pre : List String) (n : String)
    (post : List String) (e : String) (result : List Configlet) (w : World σ)
    (h : ∀ r ∈ lookupsInOrder c pre w, r.2 = none)
    (hn : (GetConfigletByName c n (worldAfterLookups c pre w)).1.2 = some e) :
    getConfigletsByNameLoop c (pre ++ n :: post) result w
      = ((result ++ (lookupsInOrder c pre w).map Prod.fst, some e),
          (GetConfigletByName c n (worldAfterLookups c pre w)).2) := by
  induction pre generalizing result w with
  | nil =>
    simp only [worldAfterLookups] at hn
    simp [getConfigletsByNameLoop, hn, lookupsInOrder, worldAfterLookups]
  | cons p rest ih =>
    have hp : (GetConfigletByName c p w).1.2 = none :=
      h _ (by simp [lookupsInOrder])
    have hrest : ∀ r ∈ lookupsInOrder c rest (GetConfigletByName c p w).2, r.2 = none :=
      fun r hr => h r (by simp [lookupsInOrder, hr])
    simp only [worldAfterLookups] at hn
    have hstep : getConfigletsByNameLoop c (p :: rest ++ n :: post) result w
        = getConfigletsByNameLoop c (rest ++ n :: post)
            (result ++ [(GetConfigletByName c p w).1.1]) (GetConfigletByName c p w).2 := by
      simp only [List.cons_append, getConfigletsByNameLoop, hp]
      rfl
    rw [hstep, ih _ _ hrest hn]
    simp [lookupsInOrder, worldAfterLookups]

theorem lookups_all_or_first_failure (c : CvpClient σ) (names : List String) (w : World σ) :
    (∀ r ∈ lookupsInOrder c names w, r.2 = none)
    ∨ ∃ pre n post e, names = pre ++ n :: post
        ∧ (∀ r ∈ lookupsInOrder c pre w, r.2 = none)
        ∧ (GetConfigletByName c n (worldAfterLookups c pre w)).1.2 = some e := by
  induction names generalizing w with
  | nil =>
    left
    simp [lookupsInOrder]
  | cons n rest ih =>
    cases hn : (GetConfigletByName c n w).1.2 with
    | some e =>
      right
      exact ⟨[], n, rest, e, rfl, by simp [lookupsInOrder], by simpa [worldAfterLookups] using hn⟩
    | none =>
      rcases ih (GetConfigletByName c n w).2 with hall | ⟨pre, m, post, e, hsplit, hpre, hm⟩
      · left
        intro r hr
        simp only [lookupsInOrder, List.mem_cons] at hr
        rcases hr with rfl | hr
        · exact hn
        · exact hall r hr
      · right
        refine ⟨n :: pre, m, post, e, by simp [hsplit], ?_, by simpa [worldAfterLookups] using hm⟩
        intro r hr
        simp only [lookupsInOrder, List.mem_cons] at hr
        rcases hr with rfl | hr
        · exact hn
        · exact hpre r hr

/-! ## Directory accessor and validation workflow: claims -/

/-- C11 as stated fails: on a remote whose answer decodes without error to a
record with no key, `GetConfigletByName` returns that record with a nil
error. -/
theorem getConfigletByName_empty_key_counterexample :
    ¬ NotFoundOnEmptyKey emptyKeyClient "Test1" world0 := by
  intro h
  exact h rfl rfl

/-- C11 amended: `GetConfigletByName` returns the record decoded from the
response body together with the decoding error, so it fails exactly when the
body cannot be decoded; when decoding succeeds the record is returned without
error whether or not its key is empty. -/
theorem getConfigletByName_returns_decoded (c : CvpClient σ) (name : String) (w : World σ) :
    (GetConfigletByName c name w).1
      = c.unmarshalConfiglet
          (c.Get ("/configlet/getConfigletByName.do?name=" ++ name) w.remote).1.1
    ∧ ((GetConfigletByName c name w).1.2 ≠ none
        ↔ (c.unmarshalConfiglet
            (c.Get ("/configlet/getConfigletByName.do?name=" ++ name) w.remote).1.1).2 ≠ none)
    ∧ ((c.unmarshalConfiglet
          (c.Get ("/configlet/getConfigletByName.do?name=" ++ name) w.remote).1.1).2 = none →
        (GetConfigletByName c name w).1
          = ((c.unmarshalConfiglet
              (c.Get ("/configlet/getConfigletByName.do?name=" ++ name) w.remote).1.1).1, none))
    ∧ (GetConfigletByName c name w).2.trace = w.trace ++ [nameLookup name] := by
  have h := GetConfigletByName_fst c name w
  refine ⟨h, ?_, ?_, GetConfigletByName_trace c name w⟩
  · rw [h]
  · intro hd
    rw [h]
    exact Prod.ext rfl hd

/-- Witness for C11 amended: the record without a key is returned with a nil
error. -/
theorem getConfigletByName_returns_decoded_witness :
    (emptyKeyClient.unmarshalConfiglet
        (emptyKeyClient.Get ("/configlet/getConfigletByName.do?name=" ++ "Test1")
          world0.remote).1.1).2 = none
    ∧ (GetConfigletByName emptyKeyClient "Test1" world0).1
        = ({ Config := "", Name := "", Key := "" }, none) :=
  ⟨rfl, (getConfigletByName_returns_decoded emptyKeyClient "Test1" world0).2.2.1 rfl⟩

/-- C12 as stated fails: on a remote where the fetch and the transport succeed
and the response body cannot be decoded, `ValidateReconcileAll` returns nil. -/
theorem validateReconcileAll_counterexample :
    ¬ SurfacesFailures undecodableClient "m1" world0 := by
  intro h
  exact h (Or.inr (Or.inr (Or.inl (by decide)))) rfl

/-- C12 amended: when the fetch yields `current` and the validate-and-compare
call returns the body `resp` at the transport, `ValidateReconcileAll` has sent
the keys of `current` and returns `checkErrors` of the envelope decoded from
`resp`: an error exactly when that envelope has a non-empty error code, and nil
otherwise, also when `resp` could not be decoded. -/
theorem validateReconcileAll_reports_error_code (c : CvpClient σ) (netElementID : String)
    (w : World σ) (current : List Configlet) (resp : Bytes)
    (hc : (getConfigletByDeviceID c netElementID w).1 = (current, none))
    (hcall : (c.Call (validateRequestOf netElementID current) validatePath
        (getConfigletByDeviceID c netElementID w).2.remote).1 = (resp, none)) :
    (ValidateReconcileAll c netElementID w).1 = checkErrors (c.unmarshalJsonData resp).1
    ∧ ((ValidateReconcileAll c netElementID w).1 ≠ none
        ↔ (c.unmarshalJsonData resp).1.ErrorCode ≠ "")
    ∧ ((c.unmarshalJsonData resp).1.ErrorCode = "" →
        (ValidateReconcileAll c netElementID w).1 = none)
    ∧ (ValidateReconcileAll c netElementID w).2.trace
        = w.trace ++ [deviceLookup netElementID,
            Event.call (validateRequestOf netElementID current) validatePath] := by
  have e1 : (getConfigletByDeviceID c netElementID w).1.1 = current := by rw [hc]
  have e2 : (c.Call (validateRequestOf netElementID current) validatePath
        (getConfigletByDeviceID c netElementID w).2.remote).1.1 = resp := by rw [hcall]
  have hres : (ValidateReconcileAll c netElementID w).1
      = checkErrors (c.unmarshalJsonData resp).1 := by
    rw [ValidateReconcileAll_fst, e1, e2]
  refine ⟨hres, ?_, ?_, ?_⟩
  · rw [hres]
    exact checkErrors_ne_none_iff _
  · intro hcode
    rw [hres]
    simp [checkErrors, hcode]
  · rw [ValidateReconcileAll_trace, e1]

/-- Witness for C12 amended: on the scenario remote the device `m1` holds `A`
and `B`, every step succeeds with an empty error code, and the result is
nil. -/
theorem validateReconcileAll_reports_error_code_witness :
    (getConfigletByDeviceID scenarioClient "m1" world0).1 = ([cfgA, cfgB], none)
    ∧ (scenarioClient.Call (validateRequestOf "m1" [cfgA, cfgB]) validatePath
        (getConfigletByDeviceID scenarioClient "m1" world0).2.remote).1 = ("", none)
    ∧ (ValidateReconcileAll scenarioClient "m1" world0).1 = none :=
  ⟨by decide, by decide,
    (validateReconcileAll_reports_error_code scenarioClient "m1" world0 [cfgA, cfgB] ""
      (by decide) (by decide)).2.2.1 (by decide)⟩

/-- C13: `getConfigletsByName` looks the names up one by one in order. If every
lookup succeeds it returns, with a nil error, the looked-up configlets in the
order of the names (as many as the names), having issued one lookup per name.
If a lookup fails after the lookups before it succeeded, it returns that
error and has issued the lookups up to the failing one and none for a later
name. One of the two cases always applies. -/
theorem getConfigletsByName_in_order (c : CvpClient σ) (names : List String) (w : World σ) :
    ((∀ r ∈ lookupsInOrder c names w, r.2 = none) →
      getConfigletsByName c names w
        = (((lookupsInOrder c names w).map Prod.fst, none), worldAfterLookups c names w)
      ∧ (getConfigletsByName c names w).1.1.length = names.length
      ∧ (getConfigletsByName c names w).2.trace = w.trace ++ names.map nameLookup)
    ∧ (∀ (pre : List String) (n : String) (post : List String) (e : String),
        names = pre ++ n :: post →
        (∀ r ∈ lookupsInOrder c pre w, r.2 = none) →
        (GetConfigletByName c n (worldAfterLookups c pre w)).1.2 = some e →
        (getConfigletsByName c names w).1.2 = some e
        ∧ (getConfigletsByName c names w).2
            = (GetConfigletByName c n (worldAfterLookups c pre w)).2
        ∧ (getConfigletsByName c names w).2.trace = w.trace ++ (pre ++ [n]).map nameLookup)
    ∧ ((∀ r ∈ lookupsInOrder c names w, r.2 = none)
      ∨ ∃ pre n post e, names = pre ++ n :: post
          ∧ (∀ r ∈ lookupsInOrder c pre w, r.2 = none)
          ∧ (GetConfigletByName c n (worldAfterLookups c pre w)).1.2 = some e) := by
  refine ⟨?_, ?_, lookups_all_or_first_failure c names w⟩
  · intro hall
    have h := getConfigletsByNameLoop_success c names [] w hall
    have h2 : getConfigletsByName c names w
        = (((lookupsInOrder c names w).map Prod.fst, none), worldAfterLookups c names w) := by
      unfold getConfigletsByName
      rw [h]
      simp
    refine ⟨h2, ?_, ?_⟩
    · rw [h2]
      simp [lookupsInOrder_length]
    · rw [h2]
      exact worldAfterLookups_trace c names w
  · intro pre n post e hsplit hpre hn
    have h := getConfigletsByNameLoop_failure c pre n post e [] w hpre hn
    have h2 : getConfigletsByName c names w
        = (((lookupsInOrder c pre w).map Prod.fst, some e),
            (GetConfigletByName c n (worldAfterLookups c pre w)).2) := by
      unfold getConfigletsByName
      rw [hsplit, h]
      simp
    refine ⟨?_, ?_, ?_⟩
    · rw [h2]
    · rw [h2]
    · rw [h2, GetConfigletByName_trace, worldAfterLookups_trace]
      simp

/-- Witness for C13 on the scenario remote: the names `A`, `C` both resolve and
give `[A, C]`; in `A`, `X`, `C` the lookup of `X` fails, its error is returned
and `C` is never looked up. -/
theorem getConfigletsByName_in_order_witness :
    (∀ r ∈ lookupsInOrder scenarioClient ["A", "C"] world0, r.2 = none)
    ∧ (getConfigletsByName scenarioClient ["A", "C"] world0).1 = ([cfgA, cfgC], none)
    ∧ (∀ r ∈ lookupsInOrder scenarioClient ["A"] world0, r.2 = none)
    ∧ (GetConfigletByName scenarioClient "X" (worldAfterLookups scenarioClient ["A"] world0)).1.2
        = some "unexpected end of JSON input"
    ∧ (getConfigletsByName scenarioClient ["A", "X", "C"] world0).1.2
        = some "unexpected end of JSON input"
    ∧ (getConfigletsByName scenarioClient ["A", "X", "C"] world0).2.trace
        = world0.trace ++ (["A"] ++ ["X"]).map nameLookup :=
  ⟨by decide,
    congrArg Prod.fst
      ((getConfigletsByName_in_order scenarioClient ["A", "C"] world0).1 (by decide)).1,
    by decide, by decide,
    ((getConfigletsByName_in_order scenarioClient ["A", "X", "C"] world0).2.1
      ["A"] "X" ["C"] "unexpected end of JSON input" rfl (by decide) (by decide)).1,
    ((getConfigletsByName_in_order scenarioClient ["A", "X", "C"] world0).2.1
      ["A"] "X" ["C"] "unexpected end of JSON input" rfl (by decide) (by decide)).2.2⟩

end Cvpgo
